import Mathlib

/-!
Verification of the image-question extraction and persistence pipeline.

The definitions below are a shallow embedding of the TypeScript source:
the question store CRUD layer, the image validator and compressor, and
the AI extraction client with its retry/backoff loop.  Timestamps are
modelled as natural numbers, JavaScript `string | null` as `Option String`,
and the `number` confidence as a rational.
-/

namespace IncorrectQuestions

/-- `ProcessingStatus` from types/question.ts: `'pending' | 'success' | 'failed'`. -/
inductive ProcessingStatus where
  | pending
  | success
  | failed
  deriving DecidableEq, Repr, Inhabited

/-- `GradeLevel` from types/question.ts: `'elementary' | 'middle' | 'high'`. -/
inductive GradeLevel where
  | elementary
  | middle
  | high
  deriving DecidableEq, Repr

/-- `AIExtractionResponse` from types/ai.ts. -/
structure AIExtractionResponse where
  questionText : String
  confidence : ℚ
  noiseFiltered : Bool
  errorMessage : Option String
  educationLevel : GradeLevel
  deriving DecidableEq, Repr

/-- The `Question` entity from types/question.ts. -/
structure Question where
  id : String
  imageBase64 : String
  fileSize : Nat
  fileFormat : String
  extractedText : String
  confidence : ℚ
  noiseFiltered : Bool
  processingStatus : ProcessingStatus
  errorMessage : Option String
  uploadTimestamp : Nat
  confirmedAt : Option Nat
  gradeLevel : Option GradeLevel
  deriving DecidableEq, Repr, Inhabited

/-- `StorageMetadata` from types/question.ts. -/
structure StorageMetadata where
  createdAt : Nat
  lastModified : Nat
  totalQuestions : Int
  deriving DecidableEq, Repr

/-- `LocalStorageSchema` from types/question.ts: the `questions` record keyed by
id is modelled as an association list. -/
structure LocalStorageSchema where
  version : String
  questions : List (String × Question)
  metadata : StorageMetadata
  deriving DecidableEq, Repr

/-- JavaScript truthiness of a `string | null` value: non-null and non-empty.
This is the test performed by `extractionResponse.errorMessage ? ... : ...`. -/
def errTruthy : Option String → Bool
  | none => false
  | some s => !(s.isEmpty)

/-- Lookup `schema.questions[id]`, returning the record if the key is present. -/
def findQ (qs : List (String × Question)) (id : String) : Option Question :=
  (qs.find? (fun p => p.1 == id)).map Prod.snd

/-- Whether the key `id` is bound in the record. -/
def hasKey (qs : List (String × Question)) (id : String) : Bool :=
  qs.any (fun p => p.1 == id)

/-- The assignment `schema.questions[id] = q`: updates the binding in place if
the key exists, else appends a new binding (JavaScript insertion order). -/
def setQ (qs : List (String × Question)) (id : String) (q : Question) :
    List (String × Question) :=
  if hasKey qs id then qs.map (fun p => if p.1 == id then (id, q) else p)
  else qs ++ [(id, q)]

/-- `delete schema.questions[id]`. -/
def removeQ (qs : List (String × Question)) (id : String) :
    List (String × Question) :=
  qs.filter (fun p => !(p.1 == id))

/-- The fresh container built by `initializeStorage` on first use. -/
def freshSchema (now : Nat) : LocalStorageSchema :=
  { version := "1.0.0"
    questions := []
    metadata := { createdAt := now, lastModified := now, totalQuestions := 0 } }

/-- Store-level errors: the CRUD functions throw on a missing id. -/
inductive StoreErr where
  | notFound (id : String)
  deriving DecidableEq, Repr

/-- `createQuestion` from the CRUD module: builds the record, derives
`processingStatus` from the truthiness of `errorMessage`, inserts it, bumps the
count and `lastModified`, and returns the generated id.  The generated UUID and
the current time are passed in as `questionId` and `now`. -/
def createQuestion (s : LocalStorageSchema) (questionId : String) (now : Nat)
    (imageBase64 : String) (fileSize : Nat) (fileFormat : String)
    (resp : AIExtractionResponse) : LocalStorageSchema × String :=
  let q : Question :=
    { id := questionId
      imageBase64 := imageBase64
      fileSize := fileSize
      fileFormat := fileFormat
      extractedText := resp.questionText
      confidence := resp.confidence
      noiseFiltered := resp.noiseFiltered
      processingStatus := if errTruthy resp.errorMessage then .failed else .pending
      errorMessage := resp.errorMessage
      uploadTimestamp := now
      confirmedAt := none
      gradeLevel := some resp.educationLevel }
  ({ s with
      questions := setQ s.questions questionId q
      metadata := { s.metadata with
        totalQuestions := s.metadata.totalQuestions + 1
        lastModified := now } }, questionId)

/-- `confirmQuestion`: throws `NotFound` if the id is absent, else sets
`confirmedAt` to now and `processingStatus` to success. -/
def confirmQuestion (s : LocalStorageSchema) (id : String) (now : Nat) :
    Except StoreErr LocalStorageSchema :=
  match findQ s.questions id with
  | none => .error (.notFound id)
  | some q =>
    let q2 : Question := { q with confirmedAt := some now, processingStatus := .success }
    .ok { s with
      questions := setQ s.questions id q2
      metadata := { s.metadata with lastModified := now } }

/-- `updateExtraction`: throws `NotFound` if the id is absent, else overwrites
the extraction fields and recomputes `processingStatus` from the truthiness of
the new `errorMessage`; `confirmedAt` is not touched. -/
def updateExtraction (s : LocalStorageSchema) (id : String)
    (resp : AIExtractionResponse) (now : Nat) : Except StoreErr LocalStorageSchema :=
  match findQ s.questions id with
  | none => .error (.notFound id)
  | some q =>
    let q2 : Question := { q with
      extractedText := resp.questionText
      confidence := resp.confidence
      noiseFiltered := resp.noiseFiltered
      errorMessage := resp.errorMessage
      processingStatus := if errTruthy resp.errorMessage then .failed else .pending }
    .ok { s with
      questions := setQ s.questions id q2
      metadata := { s.metadata with lastModified := now } }

/-- `deleteQuestion`: throws `NotFound` if the id is absent, else removes the
record and decrements the count. -/
def deleteQuestion (s : LocalStorageSchema) (id : String) (now : Nat) :
    Except StoreErr LocalStorageSchema :=
  if hasKey s.questions id then
    .ok { s with
      questions := removeQ s.questions id
      metadata := { s.metadata with
        totalQuestions := s.metadata.totalQuestions - 1
        lastModified := now } }
  else .error (.notFound id)

/-- `clearAllQuestions`: empties the container and resets the count. -/
def clearAllQuestions (s : LocalStorageSchema) (now : Nat) : LocalStorageSchema :=
  { s with
    questions := []
    metadata := { s.metadata with totalQuestions := 0, lastModified := now } }

/-- One store operation, with the ambient UUID/current-time inputs explicit. -/
inductive StoreOp where
  | create (id : String) (now : Nat) (img : String) (fs : Nat) (ff : String)
      (resp : AIExtractionResponse)
  | confirm (id : String) (now : Nat)
  | update (id : String) (resp : AIExtractionResponse) (now : Nat)
  | del (id : String) (now : Nat)
  | clearAll (now : Nat)

/-- Apply one operation to the container; a `NotFound` throw happens before any
mutation, so the state is unchanged on error. -/
def applyOp (s : LocalStorageSchema) : StoreOp → LocalStorageSchema
  | .create id now img fs ff resp => (createQuestion s id now img fs ff resp).1
  | .confirm id now =>
    match confirmQuestion s id now with
    | .ok s2 => s2
    | .error _ => s
  | .update id resp now =>
    match updateExtraction s id resp now with
    | .ok s2 => s2
    | .error _ => s
  | .del id now =>
    match deleteQuestion s id now with
    | .ok s2 => s2
    | .error _ => s
  | .clearAll now => clearAllQuestions s now

/-- Apply a sequence of operations left to right. -/
def applyOps (s : LocalStorageSchema) (ops : List StoreOp) : LocalStorageSchema :=
  ops.foldl applyOp s

/-- `getConfirmedQuestions` sorts by confirmation time, most recent first; the
comparator `(a, b) => new Date(b.confirmedAt!).getTime() - new Date(a.confirmedAt!).getTime()`
orders by descending timestamp. -/
def confirmedKey (q : Question) : Nat := q.confirmedAt.getD 0

/-- The descending-confirmation order used by `getConfirmedQuestions`. -/
def confirmedDesc (a b : Question) : Prop := confirmedKey b ≤ confirmedKey a

instance : DecidableRel confirmedDesc := fun a b =>
  inferInstanceAs (Decidable (confirmedKey b ≤ confirmedKey a))

instance : IsTotal Question confirmedDesc :=
  ⟨fun a b => Nat.le_total (confirmedKey b) (confirmedKey a)⟩

instance : IsTrans Question confirmedDesc :=
  ⟨fun _ _ _ h1 h2 => Nat.le_trans h2 h1⟩

/-- `getConfirmedQuestions` from the CRUD module: the record values with a
non-null `confirmedAt`, sorted most-recently-confirmed first.  It performs no
write to the container. -/
def getConfirmedQuestions (s : LocalStorageSchema) : List Question :=
  ((s.questions.map Prod.snd).filter (fun q => q.confirmedAt.isSome)).insertionSort
    confirmedDesc

/- ### Image validation (validation module) -/

/-- The metadata of a browser `File` that validation inspects. -/
structure FileDesc where
  type : String
  size : Nat
  deriving DecidableEq, Repr

/-- `ValidationResult` from the validation module. -/
structure ValidationResult where
  isValid : Bool
  errorMessage : Option String
  deriving DecidableEq, Repr

/-- `SUPPORTED_FORMATS`. -/
def SUPPORTED_FORMATS : List String := ["image/jpeg", "image/png", "image/webp"]

/-- `MAX_FILE_SIZE = 5 * 1024 * 1024` bytes. -/
def MAX_FILE_SIZE : Nat := 5 * 1024 * 1024

/-- The size in MiB rounded half-up to 2 decimals, in hundredths: the value
printed by `(file.size / (1024 * 1024)).toFixed(2)`.  `size / 2^20` is exact in
double precision, so `toFixed` rounds the exact rational (ties upward). -/
def sizeMBHundredths (size : Nat) : Nat :=
  (200 * size + 1024 * 1024) / (2 * (1024 * 1024))

/-- Renders hundredths-of-MiB as the fixed-2-decimals string `toFixed(2)` yields. -/
def mbString (h : Nat) : String :=
  toString (h / 100) ++ "." ++ (if h % 100 < 10 then "0" else "") ++ toString (h % 100)

/-- The `UnsupportedFormat` message built by `validateImageFormat`. -/
def formatErrMsg (t : String) : String :=
  "Invalid file format. Please upload an image file (JPEG, PNG, or WebP). Your file type: " ++ t

/-- The `TooLarge` message built by `validateImageSize`, carrying the size in
MiB rounded to 2 decimals. -/
def sizeErrMsg (size : Nat) : String :=
  "Image is too large (" ++ mbString (sizeMBHundredths size) ++
    "MB). Please use an image under 5MB."

/-- `validateImageFormat` from the validation module. -/
def validateImageFormat (f : FileDesc) : ValidationResult :=
  if !(SUPPORTED_FORMATS.contains f.type) then
    { isValid := false, errorMessage := some (formatErrMsg f.type) }
  else { isValid := true, errorMessage := none }

/-- `validateImageSize` from the validation module. -/
def validateImageSize (f : FileDesc) : ValidationResult :=
  if f.size > MAX_FILE_SIZE then
    { isValid := false, errorMessage := some (sizeErrMsg f.size) }
  else { isValid := true, errorMessage := none }

/-- `validateImage`: format first, then size. -/
def validateImage (f : FileDesc) : ValidationResult :=
  let formatResult := validateImageFormat f
  if !formatResult.isValid then formatResult
  else
    let sizeResult := validateImageSize f
    if !sizeResult.isValid then sizeResult
    else { isValid := true, errorMessage := none }

/- ### Image compression dimensions (compressImage) -/

/-- The new canvas dimensions computed by `compressImage`: if either dimension
exceeds `maxDimension = 1200`, scale the longer edge to 1200 preserving the
aspect ratio; otherwise keep the source dimensions. -/
def compressDims (width height : ℚ) : ℚ × ℚ :=
  let maxDimension : ℚ := 1200
  if width > maxDimension ∨ height > maxDimension then
    if width > height then (maxDimension, height / width * maxDimension)
    else (width / height * maxDimension, maxDimension)
  else (width, height)

/- ### AI extraction client (extraction module) -/

/-- The outcome of one `aiClient.chat.completions.create` call, as observed by
the extraction loop: a resolved response with its `choices[0]?.message?.content`
payload (missing/null content modelled as the empty string, which the `!content`
check treats identically), a rejected call with an HTTP `status`, or a rejected
call carrying no status. -/
inductive ApiOutcome where
  | ok (content : String)
  | httpError (status : Nat) (msg : String)
  | otherError (msg : String)
  deriving DecidableEq, Repr

/-- The errors `extractQuestionFromImage` can throw. -/
inductive ExtractErr where
  | invalidCredentials
  | emptyResponse
  | malformedResponse (raw : String)
  | retriesExhausted (attempts : Nat) (lastMsg : Option String)
  | otherError (msg : String)
  deriving DecidableEq, Repr

/-- The observable result of a call to `extractQuestionFromImage`: its returned
value or thrown error, the number of network calls issued, and the total
backoff delay awaited (ms). -/
structure ExtractState where
  result : Except ExtractErr AIExtractionResponse
  calls : Nat
  delayMs : Nat
  deriving Repr

/-- The backoff `Math.min(1000 * Math.pow(2, attempt), 10000)`. -/
def backoffDelay (attempt : Nat) : Nat := min (1000 * 2 ^ attempt) 10000

/-- The retry loop of `extractQuestionFromImage`.  `beh n` is the service's
response to the `n`-th network call (one call per loop iteration), `parse` is
`JSON.parse` specialised to `AIExtractionResponse`, and `fuel` counts the
remaining loop iterations (`maxRetries - attempt`).  Inside the `catch`: a 401
throws invalid-credentials at once; 429 or a status ≥ 500 sleeps the backoff
and retries; every other error — including the statusless errors thrown for an
empty payload or a failed parse — is rethrown immediately. -/
def extractGo (parse : String → Option AIExtractionResponse) (beh : Nat → ApiOutcome)
    (maxRetries : Nat) :
    Nat → Nat → Nat → Nat → Option String → ExtractState
  | 0, _, calls, delay, lastMsg =>
    ⟨.error (.retriesExhausted maxRetries lastMsg), calls, delay⟩
  | fuel + 1, attempt, calls, delay, _ =>
    match beh attempt with
    | .ok content =>
      if content = "" then ⟨.error .emptyResponse, calls + 1, delay⟩
      else
        match parse content with
        | some r => ⟨.ok r, calls + 1, delay⟩
        | none => ⟨.error (.malformedResponse content), calls + 1, delay⟩
    | .httpError status msg =>
      if status == 401 then ⟨.error .invalidCredentials, calls + 1, delay⟩
      else if status == 429 || decide (500 ≤ status) then
        extractGo parse beh maxRetries fuel (attempt + 1) (calls + 1)
          (delay + backoffDelay attempt) (some msg)
      else ⟨.error (.otherError msg), calls + 1, delay⟩
    | .otherError msg => ⟨.error (.otherError msg), calls + 1, delay⟩

/-- The fixed mock payload returned when no API key is configured. -/
def mockExtraction (educationLevel : GradeLevel) : AIExtractionResponse :=
  { questionText := "1. 下列物质中，属于纯净物的是（  ）\nA. 空气\nB. 盐水\nC. 蒸馏水\nD. 矿泉水"
    confidence := 95 / 100
    noiseFiltered := true
    errorMessage := none
    educationLevel := educationLevel }

/-- `extractQuestionFromImage`: with no API key configured it short-circuits to
the mock result after a simulated 1500 ms delay and zero network calls;
otherwise it runs the retry loop starting at attempt 0. -/
def extractQuestionFromImage (apiKeyConfigured : Bool)
    (parse : String → Option AIExtractionResponse) (beh : Nat → ApiOutcome)
    (educationLevel : GradeLevel) (maxRetries : Nat) : ExtractState :=
  if !apiKeyConfigured then ⟨.ok (mockExtraction educationLevel), 0, 1500⟩
  else extractGo parse beh maxRetries maxRetries 0 0 0 none

/- ### Helper lemmas about the association-list record -/

theorem mem_setQ {p : String × Question} {qs : List (String × Question)}
    {id : String} {q : Question} (hp : p ∈ setQ qs id q) :
    p.2 = q ∨ p ∈ qs := by
  unfold setQ at hp
  by_cases hk : hasKey qs id
  · rw [if_pos hk] at hp
    rcases List.mem_map.mp hp with ⟨x, hx, hfx⟩
    by_cases hxid : x.1 == id
    · rw [if_pos hxid] at hfx
      exact Or.inl (by rw [← hfx])
    · rw [if_neg hxid] at hfx
      exact Or.inr (hfx ▸ hx)
  · rw [if_neg hk] at hp
    rcases List.mem_append.mp hp with h | h
    · exact Or.inr h
    · rcases List.mem_singleton.mp h with rfl
      exact Or.inl rfl

theorem find?_map_replace (qs : List (String × Question)) (id : String)
    (q : Question) (hk : hasKey qs id = true) :
    (qs.map (fun p => if p.1 == id then (id, q) else p)).find?
      (fun p => p.1 == id) = some (id, q) := by
  induction qs with
  | nil => simp [hasKey] at hk
  | cons x xs ih =>
    by_cases hx : (x.1 == id) = true
    · rw [List.map_cons, if_pos hx]
      exact List.find?_cons_of_pos _ (by simp)
    · have hx' : (x.1 == id) = false := by simpa using hx
      have hk2 : hasKey xs id = true := by
        simp only [hasKey, List.any_cons, hx', Bool.false_or] at hk
        exact hk
      rw [List.map_cons, if_neg hx]
      have hstep : List.find? (fun p => p.1 == id)
          (x :: List.map (fun p => if (p.1 == id) = true then (id, q) else p) xs) =
          List.find? (fun p => p.1 == id)
            (List.map (fun p => if (p.1 == id) = true then (id, q) else p) xs) :=
        List.find?_cons_of_neg _ hx
      rw [hstep]
      exact ih hk2

theorem find?_append_absent (qs : List (String × Question)) (id : String)
    (q : Question) (hk : hasKey qs id = false) :
    (qs ++ [(id, q)]).find? (fun p => p.1 == id) = some (id, q) := by
  induction qs with
  | nil => simp
  | cons x xs ih =>
    simp only [hasKey, List.any_cons, Bool.or_eq_false_iff] at hk
    simp only [List.cons_append, List.find?_cons, hk.1]
    exact ih hk.2

/-- Looking up the key just written returns the record just written. -/
theorem findQ_setQ_self (qs : List (String × Question)) (id : String)
    (q : Question) : findQ (setQ qs id q) id = some q := by
  unfold findQ setQ
  by_cases hk : hasKey qs id
  · rw [if_pos hk, find?_map_replace qs id q hk]
    rfl
  · rw [if_neg hk, find?_append_absent qs id q (by simpa using hk)]
    rfl

/- ### Store invariants -/

/-- `confirmedAt != null` implies `processingStatus == success`, for every
record in the container. -/
def ConfirmedImpliesSuccess (s : LocalStorageSchema) : Prop :=
  ∀ p ∈ s.questions, p.2.confirmedAt ≠ none → p.2.processingStatus = .success

/-- `processingStatus == failed` iff `errorMessage != null`, for every record
in the container. -/
def FailedIffError (s : LocalStorageSchema) : Prop :=
  ∀ p ∈ s.questions, (p.2.processingStatus = .failed ↔ p.2.errorMessage ≠ none)

/-- The direction that does hold: a failed record has a truthy (non-null,
non-empty) `errorMessage`. -/
def FailedImpliesError (s : LocalStorageSchema) : Prop :=
  ∀ p ∈ s.questions, p.2.processingStatus = .failed → errTruthy p.2.errorMessage = true

/-- An operation is safe for the confirmed-implies-success invariant when it is
not an `updateExtraction` aimed at an already-confirmed record. -/
def opSafeForConfirmed (s : LocalStorageSchema) : StoreOp → Bool
  | .update id _ _ =>
    match findQ s.questions id with
    | some q => q.confirmedAt.isNone
    | none => true
  | _ => true

/-- Every operation along the trace is safe in the state where it runs. -/
def safeTrace : LocalStorageSchema → List StoreOp → Bool
  | _, [] => true
  | s, op :: ops => opSafeForConfirmed s op && safeTrace (applyOp s op) ops

theorem confirmedInv_applyOp (s : LocalStorageSchema) (op : StoreOp)
    (hInv : ConfirmedImpliesSuccess s)
    (hSafe : opSafeForConfirmed s op = true) :
    ConfirmedImpliesSuccess (applyOp s op) := by
  cases op with
  | create id now img fs ff resp =>
    intro p hp hc
    have hp2 : p ∈ setQ s.questions id _ := hp
    rcases mem_setQ hp2 with h | h
    · exact absurd (h ▸ rfl : p.2.confirmedAt = none) hc
    · exact hInv p h hc
  | confirm id now =>
    intro p hp hc
    simp only [applyOp, confirmQuestion] at hp
    cases hfq : findQ s.questions id with
    | none => rw [hfq] at hp; exact hInv p hp hc
    | some q =>
      rw [hfq] at hp
      rcases mem_setQ hp with h | h
      · rw [h]
      · exact hInv p h hc
  | update id resp now =>
    intro p hp hc
    simp only [applyOp, updateExtraction] at hp
    cases hfq : findQ s.questions id with
    | none => rw [hfq] at hp; exact hInv p hp hc
    | some q =>
      rw [hfq] at hp
      have hqc : q.confirmedAt = none := by
        simp only [opSafeForConfirmed, hfq, Option.isNone_iff_eq_none] at hSafe
        exact hSafe
      rcases mem_setQ hp with h | h
      · exact absurd (h ▸ hqc : p.2.confirmedAt = none) hc
      · exact hInv p h hc
  | del id now =>
    intro p hp hc
    simp only [applyOp, deleteQuestion] at hp
    by_cases hk : hasKey s.questions id
    · rw [if_pos hk] at hp
      exact hInv p (List.mem_of_mem_filter hp) hc
    · rw [if_neg hk] at hp
      exact hInv p hp hc
  | clearAll now =>
    intro p hp hc
    exact absurd hp (List.not_mem_nil p)

theorem confirmedInv_applyOps (s : LocalStorageSchema) (ops : List StoreOp)
    (hInv : ConfirmedImpliesSuccess s) (hSafe : safeTrace s ops = true) :
    ConfirmedImpliesSuccess (applyOps s ops) := by
  induction ops generalizing s with
  | nil => exact hInv
  | cons op rest ih =>
    rw [safeTrace, Bool.and_eq_true] at hSafe
    exact ih (applyOp s op) (confirmedInv_applyOp s op hInv hSafe.1) hSafe.2

theorem failedErr_applyOp (s : LocalStorageSchema) (op : StoreOp)
    (hInv : FailedImpliesError s) : FailedImpliesError (applyOp s op) := by
  cases op with
  | create id now img fs ff resp =>
    intro p hp hf
    have hp2 : p ∈ setQ s.questions id _ := hp
    rcases mem_setQ hp2 with h | h
    · by_cases he : errTruthy resp.errorMessage
      · exact h ▸ he
      · have : p.2.processingStatus = .pending := by rw [h]; simp [he]
        rw [this] at hf; exact absurd hf (by decide)
    · exact hInv p h hf
  | confirm id now =>
    intro p hp hf
    simp only [applyOp, confirmQuestion] at hp
    cases hfq : findQ s.questions id with
    | none => rw [hfq] at hp; exact hInv p hp hf
    | some q =>
      rw [hfq] at hp
      rcases mem_setQ hp with h | h
      · have : p.2.processingStatus = .success := by rw [h]
        rw [this] at hf; exact absurd hf (by decide)
      · exact hInv p h hf
  | update id resp now =>
    intro p hp hf
    simp only [applyOp, updateExtraction] at hp
    cases hfq : findQ s.questions id with
    | none => rw [hfq] at hp; exact hInv p hp hf
    | some q =>
      rw [hfq] at hp
      rcases mem_setQ hp with h | h
      · by_cases he : errTruthy resp.errorMessage
        · exact h ▸ he
        · have : p.2.processingStatus = .pending := by rw [h]; simp [he]
          rw [this] at hf; exact absurd hf (by decide)
      · exact hInv p h hf
  | del id now =>
    intro p hp hf
    simp only [applyOp, deleteQuestion] at hp
    by_cases hk : hasKey s.questions id
    · rw [if_pos hk] at hp
      exact hInv p (List.mem_of_mem_filter hp) hf
    · rw [if_neg hk] at hp
      exact hInv p hp hf
  | clearAll now =>
    intro p hp hf
    exact absurd hp (List.not_mem_nil p)

/- ### Concrete extraction results used in counterexamples and witnesses -/

/-- A successful extraction result (`errorMessage = null`). -/
def respNoErr : AIExtractionResponse :=
  { questionText := "Q"
    confidence := 1
    noiseFiltered := true
    errorMessage := none
    educationLevel := .middle }

/-- An extraction result whose `errorMessage` is the empty string: non-null but
falsy in JavaScript. -/
def respEmptyErr : AIExtractionResponse :=
  { questionText := ""
    confidence := 0
    noiseFiltered := false
    errorMessage := some ""
    educationLevel := .middle }

/-- An extraction result with a non-empty error message. -/
def respBoom : AIExtractionResponse :=
  { questionText := ""
    confidence := 0
    noiseFiltered := false
    errorMessage := some "boom"
    educationLevel := .middle }

/- ### C1: createQuestion -/

/-- C1 (counterexample): `create` with the non-null empty-string `errorMessage`
produces a record whose `processingStatus` is `pending`, not `failed` — the
source derives the status from JavaScript truthiness, and `""` is falsy. -/
theorem c1_empty_string_error_gives_pending :
    respEmptyErr.errorMessage ≠ none ∧
    (findQ (createQuestion (freshSchema 0) "a" 0 "img" 100 "image/jpeg"
        respEmptyErr).1.questions "a").map Question.processingStatus =
      some .pending ∧
    ProcessingStatus.pending ≠ ProcessingStatus.failed := by
  refine ⟨by decide, ?_, by decide⟩
  rfl

/-- C1 (amended): `createQuestion` builds and inserts a record whose
`processingStatus` is `failed` exactly when the extraction result's
`errorMessage` is truthy — non-null AND non-empty — and `pending` otherwise
(so a non-null empty-string `errorMessage` yields `pending`); the new record
has `confirmedAt = null`, the count is incremented, `lastModified` is set, and
the freshly generated id is returned. -/
theorem createQuestion_status_confirmedAt_id (s : LocalStorageSchema)
    (id : String) (now : Nat) (img : String) (fs : Nat) (ff : String)
    (resp : AIExtractionResponse) :
    (createQuestion s id now img fs ff resp).2 = id ∧
    (findQ (createQuestion s id now img fs ff resp).1.questions id).map
        (fun q => (q.processingStatus, q.confirmedAt)) =
      some (if errTruthy resp.errorMessage then .failed else .pending, none) ∧
    (createQuestion s id now img fs ff resp).1.metadata.totalQuestions =
      s.metadata.totalQuestions + 1 ∧
    (createQuestion s id now img fs ff resp).1.metadata.lastModified = now := by
  refine ⟨rfl, ?_, rfl, rfl⟩
  have h := findQ_setQ_self s.questions id
    { id := id
      imageBase64 := img
      fileSize := fs
      fileFormat := ff
      extractedText := resp.questionText
      confidence := resp.confidence
      noiseFiltered := resp.noiseFiltered
      processingStatus := if errTruthy resp.errorMessage then .failed else .pending
      errorMessage := resp.errorMessage
      uploadTimestamp := now
      confirmedAt := none
      gradeLevel := some resp.educationLevel }
  simp only [createQuestion]
  rw [h]
  rfl

/- ### C3: confirmedAt != null implies processingStatus == success -/

/-- The operation sequence that violates the confirmed-implies-success
invariant: create, confirm, then update the confirmed record. -/
def c3Ops : List StoreOp :=
  [.create "a" 0 "img" 100 "image/jpeg" respNoErr,
   .confirm "a" 1,
   .update "a" respNoErr 2]

/-- C3 (counterexample): after create → confirm → updateExtraction on the same
record, the store holds a record with `confirmedAt = 1` but `processingStatus =
pending`: `updateExtraction` recomputes the status without consulting
`confirmedAt`, so the invariant fails on this operation sequence. -/
theorem c3_update_after_confirm_breaks_invariant :
    ¬ ConfirmedImpliesSuccess (applyOps (freshSchema 0) c3Ops) ∧
    (findQ (applyOps (freshSchema 0) c3Ops).questions "a").map
        (fun q => (q.confirmedAt, q.processingStatus)) =
      some (some 1, .pending) := by
  refine ⟨fun hInv => ?_, rfl⟩
  have hmem : ("a", (applyOps (freshSchema 0) c3Ops).questions.headI.2) ∈
      (applyOps (freshSchema 0) c3Ops).questions := by decide
  have := hInv _ hmem (by decide)
  revert this
  decide

/-- C3 (amended): the invariant `confirmedAt != null ⇒ processingStatus ==
success` holds after any sequence of store operations from a fresh container in
which `updateExtraction` is never applied to an already-confirmed record;
`updateExtraction` on a confirmed record is the one operation that breaks it. -/
theorem confirmed_implies_success_safe_traces (now : Nat) (ops : List StoreOp)
    (hSafe : safeTrace (freshSchema now) ops = true) :
    ConfirmedImpliesSuccess (applyOps (freshSchema now) ops) :=
  confirmedInv_applyOps _ _ (fun p hp => absurd hp (List.not_mem_nil p)) hSafe

/-- Witness for the amended C3: a concrete safe trace — create, update while
unconfirmed, then confirm — satisfies the invariant. -/
theorem confirmed_implies_success_safe_traces_witness :
    safeTrace (freshSchema 0)
      [.create "a" 0 "img" 100 "image/jpeg" respBoom,
       .update "a" respNoErr 1, .confirm "a" 2] = true ∧
    ConfirmedImpliesSuccess (applyOps (freshSchema 0)
      [.create "a" 0 "img" 100 "image/jpeg" respBoom,
       .update "a" respNoErr 1, .confirm "a" 2]) :=
  ⟨by decide, confirmed_implies_success_safe_traces 0
    [.create "a" 0 "img" 100 "image/jpeg" respBoom,
     .update "a" respNoErr 1, .confirm "a" 2] (by decide)⟩

/- ### C4: processingStatus == failed iff errorMessage != null -/

/-- The operation sequence that violates the failed-iff-error invariant:
create a failed record, then confirm it. -/
def c4Ops : List StoreOp :=
  [.create "a" 0 "img" 100 "image/jpeg" respBoom, .confirm "a" 1]

/-- C4 (counterexample): `confirmQuestion` sets `processingStatus = success`
but leaves `errorMessage` untouched, so confirming a record created with a
non-null `errorMessage` yields `success` with `errorMessage = "boom"`,
refuting the ⇔ invariant.  (`createQuestion` with an empty-string
`errorMessage` refutes it as well, per the C1 counterexample.) -/
theorem c4_confirm_keeps_error_message :
    ¬ FailedIffError (applyOps (freshSchema 0) c4Ops) ∧
    (findQ (applyOps (freshSchema 0) c4Ops).questions "a").map
        (fun q => (q.processingStatus, q.errorMessage)) =
      some (.success, some "boom") := by
  refine ⟨fun hInv => ?_, rfl⟩
  have hmem : ("a", (applyOps (freshSchema 0) c4Ops).questions.headI.2) ∈
      (applyOps (freshSchema 0) c4Ops).questions := by decide
  have := hInv _ hmem
  revert this
  decide

/-- C4 (amended): only the forward direction is invariant: after any sequence
of store operations from a fresh container, every record with
`processingStatus == failed` has a truthy — non-null and non-empty —
`errorMessage`.  The converse fails: `confirm` keeps a non-null `errorMessage`
on a `success` record, and `create`/`updateExtraction` map an empty-string
`errorMessage` to `pending`. -/
theorem failed_implies_error_all_traces (now : Nat) (ops : List StoreOp) :
    FailedImpliesError (applyOps (freshSchema now) ops) := by
  have general : ∀ (ops2 : List StoreOp) (s : LocalStorageSchema),
      FailedImpliesError s → FailedImpliesError (applyOps s ops2) := by
    intro ops2
    induction ops2 with
    | nil => exact fun s hs => hs
    | cons op rest ih => exact fun s hs => ih (applyOp s op) (failedErr_applyOp s op hs)
  exact general ops (freshSchema now) (fun p hp => absurd hp (List.not_mem_nil p))

/- ### C2: empty payload / parse failure handling -/

/-- C2 (counterexample): against a service that always returns an empty
payload with `maxRetries = 3`, the call fails after exactly one network call —
the thrown empty-response error carries no HTTP status, so the `catch` rethrows
it immediately and the attempt is never retried, contrary to the claimed
treat-as-transient-and-retry behaviour. -/
theorem c2_empty_payload_fails_without_retry :
    extractQuestionFromImage true (fun _ => none) (fun _ => .ok "") .middle 3 =
      ⟨.error .emptyResponse, 1, 0⟩ ∧ (1 : Nat) ≠ 3 :=
  ⟨rfl, by decide⟩

/-- C2 (amended): neither an empty payload nor a parse failure of a non-empty
payload is retried: both raise statusless errors that the `catch` rethrows
immediately, so the call fails outright after exactly one network call (the
parse failure exposing the raw payload). -/
theorem extract_empty_or_malformed_fails_once
    (parse : String → Option AIExtractionResponse) (beh : Nat → ApiOutcome)
    (level : GradeLevel) (maxRetries : Nat) (content : String)
    (hmr : 1 ≤ maxRetries) (hbeh : beh 0 = .ok content) :
    (content = "" → extractQuestionFromImage true parse beh level maxRetries =
      ⟨.error .emptyResponse, 1, 0⟩) ∧
    (content ≠ "" → parse content = none →
      extractQuestionFromImage true parse beh level maxRetries =
        ⟨.error (.malformedResponse content), 1, 0⟩) := by
  obtain ⟨k, rfl⟩ : ∃ k, maxRetries = k + 1 :=
    ⟨maxRetries - 1, (Nat.succ_pred_eq_of_pos hmr).symm⟩
  constructor
  · intro hc
    simp [extractQuestionFromImage, extractGo, hbeh, hc]
  · intro hc hp
    simp [extractQuestionFromImage, extractGo, hbeh, hc, hp]

/-- Witness for the amended C2: a parse failure of the non-empty payload
`"not json"` fails outright after one call. -/
theorem extract_malformed_fails_once_witness :
    extractQuestionFromImage true (fun _ => none) (fun _ => .ok "not json")
      .elementary 2 = ⟨.error (.malformedResponse "not json"), 1, 0⟩ :=
  (extract_empty_or_malformed_fails_once (fun _ => none)
    (fun _ => .ok "not json") .elementary 2 "not json" (by decide) rfl).2
    (by decide) rfl

/- ### C5: backoff and retry exhaustion -/

/-- A retryable status — 429 or any status ≥ 500 — fails the 401 test of the
`catch` and passes its retry test. -/
theorem retryable_flags (st : Nat) (h : st = 429 ∨ 500 ≤ st) :
    (st == 401) = false ∧ (st == 429 || decide (500 ≤ st)) = true := by
  constructor
  · simp only [beq_eq_false_iff_ne]
    omega
  · rcases h with h | h
    · subst h
      rfl
    · rw [decide_eq_true h, Bool.or_true]

/-- C5: every rate-limit (429) or server (any status ≥ 500) error is retried
with backoff `min(1000·2^attempt, 10000)` per attempt; with `maxRetries = 3`,
any mix of retryable statuses on all three attempts exhausts the retries and
the failure carries the last underlying message (total backoff 1000 + 2000 +
4000 ms), while retryable failures on the first two attempts followed by a
successful third attempt make the call succeed with exactly 1000 + 2000 =
3000 ms of backoff — within the claimed 1000–3000 ms window. -/
theorem retry_backoff_spec (parse : String → Option AIExtractionResponse)
    (behF behS : Nat → ApiOutcome) (level : GradeLevel)
    (stF0 stF1 stF2 stS0 stS1 : Nat) (mF0 mF1 mF2 mS0 mS1 content : String)
    (r : AIExtractionResponse)
    (hF0 : behF 0 = .httpError stF0 mF0) (hFr0 : stF0 = 429 ∨ 500 ≤ stF0)
    (hF1 : behF 1 = .httpError stF1 mF1) (hFr1 : stF1 = 429 ∨ 500 ≤ stF1)
    (hF2 : behF 2 = .httpError stF2 mF2) (hFr2 : stF2 = 429 ∨ 500 ≤ stF2)
    (hS0 : behS 0 = .httpError stS0 mS0) (hSr0 : stS0 = 429 ∨ 500 ≤ stS0)
    (hS1 : behS 1 = .httpError stS1 mS1) (hSr1 : stS1 = 429 ∨ 500 ≤ stS1)
    (hS2 : behS 2 = .ok content) (hc : content ≠ "")
    (hp : parse content = some r) :
    extractQuestionFromImage true parse behF level 3 =
      ⟨.error (.retriesExhausted 3 (some mF2)), 3, 7000⟩ ∧
    (∀ attempt, backoffDelay attempt = min (1000 * 2 ^ attempt) 10000) ∧
    backoffDelay 0 = 1000 ∧ backoffDelay 1 = 2000 ∧ backoffDelay 2 = 4000 ∧
    extractQuestionFromImage true parse behS level 3 = ⟨.ok r, 3, 3000⟩ ∧
    1000 ≤ 3000 ∧ (3000 : Nat) ≤ 3000 := by
  have b0 := retryable_flags stF0 hFr0
  have b1 := retryable_flags stF1 hFr1
  have b2 := retryable_flags stF2 hFr2
  have c0 := retryable_flags stS0 hSr0
  have c1 := retryable_flags stS1 hSr1
  refine ⟨?_, fun attempt => rfl, by decide, by decide, by decide, ?_,
    by decide, by decide⟩
  · show extractGo parse behF 3 3 0 0 0 none = _
    rw [show (3 : Nat) = 2 + 1 from rfl]
    simp [extractGo, hF0, hF1, hF2, b0.1, b0.2, b1.1, b1.2, b2.1, b2.2,
      backoffDelay]
  · show extractGo parse behS 3 3 0 0 0 none = _
    rw [show (3 : Nat) = 2 + 1 from rfl]
    simp [extractGo, hS0, hS1, hS2, c0.1, c0.2, c1.1, c1.2, hc, hp,
      backoffDelay]

/-- Witness for C5 at concrete behaviours with mixed retryable statuses: a
service failing with 500, 503, 429 across the three attempts, and a
502-then-429-then-success service with a concrete parse function. -/
theorem retry_backoff_spec_witness :
    extractQuestionFromImage true
        (fun s => if s = "good" then some respNoErr else none)
        (fun n => if n = 0 then .httpError 500 "server down"
          else if n = 1 then .httpError 503 "unavailable"
          else .httpError 429 "rate limited") .middle 3 =
      ⟨.error (.retriesExhausted 3 (some "rate limited")), 3, 7000⟩ ∧
    extractQuestionFromImage true
        (fun s => if s = "good" then some respNoErr else none)
        (fun n => if n = 0 then .httpError 502 "bad gateway"
          else if n = 1 then .httpError 429 "rate limited" else .ok "good")
        .middle 3 = ⟨.ok respNoErr, 3, 3000⟩ := by
  have h := retry_backoff_spec
    (fun s => if s = "good" then some respNoErr else none)
    (fun n => if n = 0 then .httpError 500 "server down"
      else if n = 1 then .httpError 503 "unavailable"
      else .httpError 429 "rate limited")
    (fun n => if n = 0 then .httpError 502 "bad gateway"
      else if n = 1 then .httpError 429 "rate limited" else .ok "good")
    .middle 500 503 429 502 429
    "server down" "unavailable" "rate limited" "bad gateway" "rate limited"
    "good" respNoErr
    (by decide) (by decide) (by decide) (by decide) (by decide) (by decide)
    (by decide) (by decide) (by decide) (by decide) (by decide)
    (by decide) (by simp)
  exact ⟨h.1, h.2.2.2.2.2.1⟩

/- ### C6: authentication failure -/

/-- C6: a 401 from the service makes the call fail at once with the
invalid-credentials error, with no retry and exactly one network call — the
401 branch of the `catch` precedes the backoff branch. -/
theorem auth_error_fails_immediately
    (parse : String → Option AIExtractionResponse) (beh : Nat → ApiOutcome)
    (level : GradeLevel) (maxRetries : Nat) (msg : String)
    (hmr : 1 ≤ maxRetries) (hbeh : beh 0 = .httpError 401 msg) :
    extractQuestionFromImage true parse beh level maxRetries =
      ⟨.error .invalidCredentials, 1, 0⟩ := by
  obtain ⟨k, rfl⟩ : ∃ k, maxRetries = k + 1 :=
    ⟨maxRetries - 1, (Nat.succ_pred_eq_of_pos hmr).symm⟩
  simp [extractQuestionFromImage, extractGo, hbeh]

/-- Witness for C6: a concrete always-401 service. -/
theorem auth_error_fails_immediately_witness :
    extractQuestionFromImage true (fun _ => none)
      (fun _ => .httpError 401 "unauthorized") .high 3 =
      ⟨.error .invalidCredentials, 1, 0⟩ :=
  auth_error_fails_immediately (fun _ => none)
    (fun _ => .httpError 401 "unauthorized") .high 3 "unauthorized"
    (by decide) rfl

/- ### C7: mock short-circuit -/

/-- C7: with no API key configured, the client issues zero network calls and
returns the fixed mock payload — the sample question text, confidence 0.95,
`noiseFiltered = true`, no error — echoing the requested education level,
after the simulated 1500 ms delay. -/
theorem no_api_key_returns_mock (parse : String → Option AIExtractionResponse)
    (beh : Nat → ApiOutcome) (level : GradeLevel) (maxRetries : Nat) :
    extractQuestionFromImage false parse beh level maxRetries =
      ⟨.ok (mockExtraction level), 0, 1500⟩ ∧
    (mockExtraction level).questionText =
      "1. 下列物质中，属于纯净物的是（  ）\nA. 空气\nB. 盐水\nC. 蒸馏水\nD. 矿泉水" ∧
    (mockExtraction level).confidence = 95 / 100 ∧
    (mockExtraction level).noiseFiltered = true ∧
    (mockExtraction level).errorMessage = none ∧
    (mockExtraction level).educationLevel = level :=
  ⟨rfl, rfl, rfl, rfl, rfl, rfl⟩

/- ### C8: validateImage checks format before size -/

/-- C8: validation checks the declared MIME type first — an unsupported type
yields the `UnsupportedFormat` failure (carrying the offending type) no matter
the size; a supported type over 5 MiB yields the `TooLarge` failure carrying
the size in MiB rounded to 2 decimals; otherwise validation succeeds. -/
theorem validate_format_then_size (f : FileDesc) :
    (f.type ∉ SUPPORTED_FORMATS →
      validateImage f = ⟨false, some (formatErrMsg f.type)⟩) ∧
    (f.type ∈ SUPPORTED_FORMATS → MAX_FILE_SIZE < f.size →
      validateImage f = ⟨false, some (sizeErrMsg f.size)⟩) ∧
    (f.type ∈ SUPPORTED_FORMATS → f.size ≤ MAX_FILE_SIZE →
      validateImage f = ⟨true, none⟩) := by
  refine ⟨fun hfmt => ?_, fun hfmt hsz => ?_, fun hfmt hsz => ?_⟩
  · simp [validateImage, validateImageFormat, hfmt]
  · simp [validateImage, validateImageFormat, validateImageSize, hfmt, hsz]
  · have hns : ¬ (MAX_FILE_SIZE < f.size) := Nat.not_lt.mpr hsz
    simp [validateImage, validateImageFormat, validateImageSize, hfmt, hns]

/-- Witness for C8: a 6 MiB JPEG fails on size — and a PDF of the same size
fails on format, not size. -/
theorem validate_format_then_size_witness :
    validateImage ⟨"image/jpeg", 6 * 1024 * 1024⟩ =
      ⟨false, some (sizeErrMsg (6 * 1024 * 1024))⟩ ∧
    validateImage ⟨"application/pdf", 6 * 1024 * 1024⟩ =
      ⟨false, some (formatErrMsg "application/pdf")⟩ :=
  ⟨(validate_format_then_size ⟨"image/jpeg", 6 * 1024 * 1024⟩).2.1
      (by decide) (by decide),
   (validate_format_then_size ⟨"application/pdf", 6 * 1024 * 1024⟩).1
      (by decide)⟩

/- ### C9: compressImage dimensions -/

theorem compressDims_small {w h : ℚ} (hw : w ≤ 1200) (hh : h ≤ 1200) :
    compressDims w h = (w, h) := by
  simp only [compressDims]
  rw [if_neg]
  push_neg
  exact ⟨hw, hh⟩

theorem compressDims_wide {w h : ℚ} (hb : 1200 < w ∨ 1200 < h) (hwh : h < w) :
    compressDims w h = (1200, h / w * 1200) := by
  simp only [compressDims]
  rw [if_pos hb, if_pos hwh]

theorem compressDims_tall {w h : ℚ} (hb : 1200 < w ∨ 1200 < h) (hwh : w ≤ h) :
    compressDims w h = (w / h * 1200, 1200) := by
  simp only [compressDims]
  rw [if_pos hb, if_neg (not_lt.mpr hwh)]

/-- C9: for positive source dimensions, the dimensions computed by
`compressImage` never exceed 1200 on either edge, are the source dimensions
unchanged when both already fit in 1200, and preserve the aspect ratio
exactly (`w' · h = h' · w`). -/
theorem compress_dims_bounded_and_aspect (w h : ℚ) (hw : 0 < w) (hh : 0 < h) :
    (compressDims w h).1 ≤ 1200 ∧ (compressDims w h).2 ≤ 1200 ∧
    (w ≤ 1200 → h ≤ 1200 → compressDims w h = (w, h)) ∧
    (compressDims w h).1 * h = (compressDims w h).2 * w := by
  have hw0 : w ≠ 0 := ne_of_gt hw
  have hh0 : h ≠ 0 := ne_of_gt hh
  by_cases hbig : 1200 < w ∨ 1200 < h
  · by_cases hwh : h < w
    · rw [compressDims_wide hbig hwh]
      refine ⟨le_refl _, ?_, ?_, ?_⟩
      · have h1 : h / w ≤ 1 := (div_le_one hw).mpr hwh.le
        calc h / w * 1200 ≤ 1 * 1200 :=
              mul_le_mul_of_nonneg_right h1 (by norm_num)
          _ = 1200 := one_mul _
      · intro hw2 hh2
        rcases hbig with hb | hb
        · exact absurd hw2 (not_le.mpr hb)
        · exact absurd hh2 (not_le.mpr hb)
      · field_simp
        ring
    · push_neg at hwh
      rw [compressDims_tall hbig hwh]
      refine ⟨?_, le_refl _, ?_, ?_⟩
      · have h1 : w / h ≤ 1 := (div_le_one hh).mpr hwh
        calc w / h * 1200 ≤ 1 * 1200 :=
              mul_le_mul_of_nonneg_right h1 (by norm_num)
          _ = 1200 := one_mul _
      · intro hw2 hh2
        rcases hbig with hb | hb
        · exact absurd hw2 (not_le.mpr hb)
        · exact absurd hh2 (not_le.mpr hb)
      · field_simp
        ring
  · push_neg at hbig
    rw [compressDims_small hbig.1 hbig.2]
    exact ⟨hbig.1, hbig.2, fun _ _ => rfl, mul_comm w h⟩

/-- Witness for C9: a 2400 × 1200 source is scaled to fit within 1200 while
keeping the 2:1 aspect ratio. -/
theorem compress_dims_witness :
    (compressDims 2400 1200).1 ≤ 1200 ∧ (compressDims 2400 1200).2 ≤ 1200 ∧
    ((2400 : ℚ) ≤ 1200 → (1200 : ℚ) ≤ 1200 →
      compressDims 2400 1200 = (2400, 1200)) ∧
    (compressDims 2400 1200).1 * 1200 = (compressDims 2400 1200).2 * 2400 :=
  compress_dims_bounded_and_aspect 2400 1200 (by norm_num) (by norm_num)

/- ### C10: getConfirmedQuestions -/

/-- C10: `getConfirmedQuestions` returns exactly the stored records whose
`confirmedAt` is non-null — as a multiset, a permutation of that filter —
sorted by confirmation time descending (most recent first); it is a pure read
of the container (the source performs no write). -/
theorem getConfirmed_exact_and_sorted (s : LocalStorageSchema) (q : Question) :
    (q ∈ getConfirmedQuestions s ↔
      q ∈ s.questions.map Prod.snd ∧ q.confirmedAt ≠ none) ∧
    (getConfirmedQuestions s).Sorted confirmedDesc ∧
    (getConfirmedQuestions s).Perm
      ((s.questions.map Prod.snd).filter (fun q2 => q2.confirmedAt.isSome)) := by
  refine ⟨?_, List.sorted_insertionSort confirmedDesc _,
    List.perm_insertionSort confirmedDesc _⟩
  have hperm := List.perm_insertionSort confirmedDesc
    ((s.questions.map Prod.snd).filter (fun q2 => q2.confirmedAt.isSome))
  rw [getConfirmedQuestions, hperm.mem_iff, List.mem_filter,
    Option.isSome_iff_ne_none]

end IncorrectQuestions
